import Mathlib

/-!
# Verification of the InternationalAudit rule engine

Shallow embedding of the core rule-evaluation engine of the repository
(`rules.py`, `postprocess.py`, `preprocess.py`, `app.py`) and proofs of the
frozen claims about it.

Modelling conventions:
* A pandas cell is a `CellVal`: missing (`na`), an integer (the engine's
  numeric columns are `Int64` after preprocessing), or a string.
* A record (row) is a `Row`: a total valuation of the column vocabulary plus
  the engine-owned derived columns `__approved`, `exclusion_mask` and the
  three trigger-set columns.  Columns are total functions, which models the
  situation in which every referenced column exists in the frame.
* A record set (DataFrame) is a `List Row`; vectorised pandas operations
  become `List.map` / `List.filter`, and the in-place `df.loc[...] = ...`
  updates (which only ever touch the trigger-set columns) become functional
  row updates.
* Python `set` columns become `Finset String`; `x.union({t})` becomes
  `insert t x`.
* Code that can raise returns `Except String`; the `@rule_method` wrapper
  that catches exceptions and returns the incoming frame becomes `run_rule`.
* Logging (`loguru`) has no observable effect on the returned frame and is
  not modelled.
-/

/-- A pandas cell value: missing (`NaN`/`pd.NA`), an integer (numeric columns
are `Int64` after `__fix_numerical_cols`), or a string. -/
inductive CellVal where
  | na
  | num (n : Int)
  | str (s : String)
deriving DecidableEq

/-- Python `str(x)` / pandas `.astype(str)` on a cell; pandas renders a
missing value as the string `"nan"`. -/
def cellStr : CellVal → String
  | .na => "nan"
  | .num n => toString n
  | .str s => s

/-- `notna` on a cell. -/
def CellVal.notna : CellVal → Bool
  | .na => false
  | _ => true

/-- One record (row) of the frame.  `cols` is the (total) column valuation;
`approved` is the `__approved` column computed once by the preprocessor;
`exclusionMask` is the `exclusion_mask` column; the three trigger sets are
the columns `Filter Applied(Exclusions not Applied)` (`rawTriggers`),
`Filter Applied` (`finalTriggers`) and
`Filter Applied(Manual Verification Required)` (`manualTriggers`). -/
structure Row where
  cols : String → CellVal
  approved : Bool
  exclusionMask : Bool
  rawTriggers : Finset String
  finalTriggers : Finset String
  manualTriggers : Finset String

instance : Inhabited Row :=
  ⟨{ cols := fun _ => .na, approved := false, exclusionMask := false,
     rawTriggers := ∅, finalTriggers := ∅, manualTriggers := ∅ }⟩

/-! ## Extra conditions (`ComputeRule._check_extra_condition`) -/

/-- A JSON value appearing as the operand of an extra-condition operator:
a number, a string, or a list (used by `isin`/`notin`). -/
inductive CVal where
  | num (n : Int)
  | str (s : String)
  | vlist (l : List CVal)

/-- Python `isinstance(val, (int, float))`. -/
def CVal.isNumeric : CVal → Bool
  | .num _ => true
  | _ => false

/-- The numeric payload (only read behind `isNumeric`). -/
def CVal.numVal : CVal → Int
  | .num n => n
  | _ => 0

/-- Python `isinstance(val, list)`. -/
def CVal.isList : CVal → Bool
  | .vlist _ => true
  | _ => false

/-- The list payload (only read behind `isList`). -/
def CVal.listVal : CVal → List CVal
  | .vlist l => l
  | _ => []

/-- Python `str(val)` for an operand.  No catalogued rule applies `eq`/`neq`
to a list operand, so the list case is rendered loosely. -/
def valStr : CVal → String
  | .num n => toString n
  | .str s => s
  | .vlist _ => "[]"

/-- Equality test used by pandas `Series.isin`: type-sensitive, so a string
cell never matches a numeric operand and a missing cell matches nothing. -/
def cvalMatchesCell : CellVal → CVal → Bool
  | .num n, .num m => n == m
  | .str s, .str t => s == t
  | _, _ => false

/-- pandas `df[col].isin(val)` at one cell. -/
def cellIsin (c : CellVal) (l : List CVal) : Bool :=
  l.any (cvalMatchesCell c)

/-- pandas `df[col] >= val` at one cell.  A missing value compares false.
A string cell under a numeric comparison raises `TypeError` in pandas, which
the `@rule_method` wrapper turns into a no-op of the whole rule; since a
false mask cell likewise yields no trigger, the trigger-observable behaviour
is `false`, which is how it is modelled here. -/
def cellGE (c : CellVal) (v : Int) : Bool :=
  match c with
  | .num m => decide (v ≤ m)
  | _ => false

/-- pandas `df[col] <= val` at one cell (see `cellGE` for the conventions). -/
def cellLE (c : CellVal) (v : Int) : Bool :=
  match c with
  | .num m => decide (m ≤ v)
  | _ => false

/-- pandas `df[col] > val` at one cell (see `cellGE` for the conventions). -/
def cellGT (c : CellVal) (v : Int) : Bool :=
  match c with
  | .num m => decide (v < m)
  | _ => false

/-- pandas `df[col] < val` at one cell (see `cellGE` for the conventions). -/
def cellLT (c : CellVal) (v : Int) : Bool :=
  match c with
  | .num m => decide (m < v)
  | _ => false

/-- One entry of an `extra_condition` list: `{"column": col, "condition":
{op1: val1, ...}}`.  The condition dict becomes an association list. -/
structure ExtraClause where
  column : String
  condition : List (String × CVal)

/-- The operator names recognised by `_check_extra_condition`. -/
def recognizedOps : List String :=
  ["gte", "lte", "gt", "lt", "eq", "neq", "isin", "notin", "notna"]

/-- The `if/elif/.../else` operator chain of `_check_extra_condition` at one
cell: numeric operators are guarded by `isinstance(val, (int, float))`,
`isin`/`notin` by `isinstance(val, list)`, and everything that matches no
branch falls into the invalid-operator fallback `mask &= False`. -/
def condEval (r : Row) (col : String) (op : String) (val : CVal) : Bool :=
  if op == "gte" && val.isNumeric then cellGE (r.cols col) val.numVal
  else if op == "lte" && val.isNumeric then cellLE (r.cols col) val.numVal
  else if op == "gt" && val.isNumeric then cellGT (r.cols col) val.numVal
  else if op == "lt" && val.isNumeric then cellLT (r.cols col) val.numVal
  else if op == "eq" then (cellStr (r.cols col)).toLower == (valStr val).toLower
  else if op == "neq" then (cellStr (r.cols col)).toLower != (valStr val).toLower
  else if op == "isin" && val.isList then cellIsin (r.cols col) val.listVal
  else if op == "notin" && val.isList then !cellIsin (r.cols col) val.listVal
  else if op == "notna" then (r.cols col).notna
  else false

/-- `ComputeRule._check_extra_condition` at one row: the mask starts all-true,
is `&=`-folded over every clause and every operator entry of its condition
dict, and is finally `&=`-ed with the `__approved` column. -/
def check_extra_condition (extra : List ExtraClause) (r : Row) : Bool :=
  (extra.all fun c => c.condition.all fun p => condEval r c.column p.1 p.2)
    && r.approved

/-! ## Inclusion / exclusion masks (`ComputeRule._compute_inclusion_exclusion`) -/

/-- A `{"column": ..., "codes": [...]}` entry of a new-style inclusion or
exclusion list. -/
structure Clause where
  column : String
  codes : List String

/-- An inclusion or exclusion parameter: either the old style (a list of bare
code strings, matched against the separate `inclusion_column` /
`exclusion_column` argument) or the new style (a list of `Clause`). -/
inductive CodeSpec where
  | strs (codes : List String)
  | dicts (clauses : List Clause)

/-- Python truthiness of the parameter (`if inclusion:` / `if exclusion:`):
an empty list is falsy. -/
def CodeSpec.truthy : CodeSpec → Bool
  | .strs cs => !cs.isEmpty
  | .dicts cs => !cs.isEmpty

/-- Case-insensitive membership of a row's cell (stringified) in a code
list: `str(x).lower() in [c.lower() for c in codes]`, which is also what
`.astype(str).str.lower().isin({c.lower() for c in codes})` computes. -/
def codeMatch (codes : List String) (col : String) (r : Row) : Bool :=
  (codes.map String.toLower).contains (cellStr (r.cols col)).toLower

/-- The `is_inclusion_present` mask at one row: defaults to true; for a
truthy old-style list with an `inclusion_column` it is the single
code-membership mask; for a truthy new-style list it is the OR of the
per-clause masks.  An old-style list without an `inclusion_column` builds no
mask, leaving the all-true default. -/
def is_inclusion_present (inclusion : Option CodeSpec)
    (inclusionColumn : Option String) (r : Row) : Bool :=
  match inclusion with
  | none => true
  | some s =>
    if s.truthy then
      match s, inclusionColumn with
      | .strs codes, some col => codeMatch codes col r
      | .strs _, none => true
      | .dicts clauses, _ => clauses.any fun c => codeMatch c.codes c.column r
    else true

/-- The `is_exclusion_absent` mask at one row: defaults to true; for a truthy
old-style list with an `exclusion_column` it is the negated membership mask;
for a truthy new-style list it is the AND of the per-clause negated masks. -/
def is_exclusion_absent (exclusion : Option CodeSpec)
    (exclusionColumn : Option String) (r : Row) : Bool :=
  match exclusion with
  | none => true
  | some s =>
    if s.truthy then
      match s, exclusionColumn with
      | .strs codes, some col => !codeMatch codes col r
      | .strs _, none => true
      | .dicts clauses, _ => clauses.all fun c => !codeMatch c.codes c.column r
    else true

/-- The `is_extra_conditions_present` mask at one row: all-true default when
the parameter is absent or falsy, otherwise `_check_extra_condition`. -/
def is_extra_conditions_present (extra : Option (List ExtraClause))
    (r : Row) : Bool :=
  match extra with
  | none => true
  | some ecs => if ecs.isEmpty then true else check_extra_condition ecs r

/-- The final `is_trigger_present` mask of `_compute_inclusion_exclusion`:
inclusion AND exclusion-absent AND extra-conditions AND `__approved`. -/
def trigger_present (inclusion exclusion : Option CodeSpec)
    (inclusionColumn exclusionColumn : Option String)
    (extra : Option (List ExtraClause)) (r : Row) : Bool :=
  is_inclusion_present inclusion inclusionColumn r
    && is_exclusion_absent exclusion exclusionColumn r
    && is_extra_conditions_present extra r
    && r.approved

/-- `ComputeRule._compute_inclusion_exclusion`: raises (`RuntimeError`) when
all three of inclusion/exclusion/extra_condition are `None`; otherwise unions
`trigger_name` into the `Filter Applied(Exclusions not Applied)` set of every
row where the final mask holds. -/
def compute_inclusion_exclusion (df : List Row) (trigger_name : String)
    (inclusion exclusion : Option CodeSpec)
    (inclusionColumn exclusionColumn : Option String)
    (extra : Option (List ExtraClause)) : Except String (List Row) :=
  if inclusion.isNone && exclusion.isNone && extra.isNone then
    .error "Inclusion, Exclusion and Extra Condition can not be None at the same time."
  else
    .ok (df.map fun r =>
      if trigger_present inclusion exclusion inclusionColumn exclusionColumn extra r
      then { r with rawTriggers := insert trigger_name r.rawTriggers }
      else r)

/-! ## Group-pair rules (`ComputeRule._apply_group_pair_rule`) -/

/-- The `_GROUP_KEY` column:
`df[pre_auth_col].where(df[pre_auth_col].notna(), df["CLAIM_NUMBER"])` — the
pre-auth number where present, else the claim number.  (With a total column
vocabulary the `pre_auth_col` fallback name resolution always picks
`PRE_AUTH_NUMBER`.) -/
def groupKey (r : Row) : CellVal :=
  if r.cols "PRE_AUTH_NUMBER" = CellVal.na then r.cols "CLAIM_NUMBER"
  else r.cols "PRE_AUTH_NUMBER"

/-- `set(group.loc[group["__approved"], code_column].astype(str))` for the
group keyed `k`: the (stringified) codes of the approved rows of the group.
Computed as a list; only membership is ever consumed. -/
def approvedCodes (d : List Row) (codeCol : String) (k : CellVal) : List String :=
  (d.filter fun r => decide (groupKey r = k) && r.approved).map
    fun r => cellStr (r.cols codeCol)

/-- `has_A and has_B` for one `(A_list, B_list)` pair: the approved code set
is disjoint from neither side. -/
def pairMatch (codes : List String) (p : List String × List String) : Bool :=
  codes.any (fun c => p.1.contains c) && codes.any (fun c => p.2.contains c)

/-- The body of the per-group loop of `_apply_group_pair_rule` for the group
keyed `k`: scan `pair_list` in declaration order; on the first pair whose two
sides both intersect the group's approved codes, union the trigger into every
row of the group whose own (stringified) code lies in `A_set | B_set` and
which is approved; the `break` after the first match is the `find?`. -/
def tagGroup (t : String) (pairs : List (List String × List String))
    (codeCol : String) (d : List Row) (k : CellVal) : List Row :=
  match pairs.find? (pairMatch (approvedCodes d codeCol k)) with
  | some p =>
      d.map fun r =>
        if decide (groupKey r = k)
            && (p.1.contains (cellStr (r.cols codeCol))
                || p.2.contains (cellStr (r.cols codeCol)))
            && r.approved
        then { r with rawTriggers := insert t r.rawTriggers }
        else r
  | none => d

/-- `ComputeRule._apply_group_pair_rule`: iterate `df.groupby("_GROUP_KEY")`
— i.e. the distinct group keys, with null keys dropped (pandas `groupby`
excludes NA keys) — applying `tagGroup` for each key.  The `_GROUP_KEY`
column is ephemeral (`groupKey` is recomputed, never stored). -/
def apply_group_pair_rule (df : List Row) (t : String)
    (pairs : List (List String × List String)) (codeCol : String) : List Row :=
  (((df.map groupKey).dedup.filter fun k => decide (k ≠ CellVal.na))).foldl
    (tagGroup t pairs codeCol) df

/-- Claim C2's row-level tagging condition, following the claim's wording:
for the row's own correlation group, the first declared pair both of whose
sides intersect the group's approved codes exists, the row's own code lies in
`A ∪ B`, and the row is approved. -/
def gpTagged (df : List Row) (pairs : List (List String × List String))
    (codeCol : String) (r : Row) : Bool :=
  match pairs.find? (pairMatch (approvedCodes df codeCol (groupKey r))) with
  | some p =>
      (p.1.contains (cellStr (r.cols codeCol))
        || p.2.contains (cellStr (r.cols codeCol))) && r.approved
  | none => false

/-- Two frames agree on the columns the group-pair evaluator reads (the
column valuations and the approval flags), position by position.  Tagging
only ever rewrites trigger sets, so it preserves this relation. -/
def coreEq (d d' : List Row) : Prop :=
  d.length = d'.length
    ∧ ∀ j, (d.getD j default).cols = (d'.getD j default).cols
        ∧ (d.getD j default).approved = (d'.getD j default).approved

/-! ## Manual promotion (`ComputeRule.apply_manual_trigger`) -/

/-- `ComputeRule.apply_manual_trigger`: rows whose raw trigger set is
nonempty and contains the rule's name (`len(x) > 0 and trigger_name in x`)
and which are not exclusion-eligible get the name unioned into
`Filter Applied(Manual Verification Required)`. -/
def apply_manual_trigger (df : List Row) (trigger_name : String) : List Row :=
  df.map fun r =>
    if 0 < r.rawTriggers.card ∧ trigger_name ∈ r.rawTriggers ∧ ¬r.exclusionMask
    then { r with manualTriggers := insert trigger_name r.manualTriggers }
    else r

/-! ## Postprocessing (`PostProcessClass`) -/

/-- `PostProcessClass.add_exclusions`: rows with a nonempty raw trigger set
that are not exclusion-eligible get `Filter Applied` set to the raw set. -/
def add_exclusions (df : List Row) : List Row :=
  df.map fun r =>
    if r.rawTriggers ≠ ∅ ∧ ¬r.exclusionMask
    then { r with finalTriggers := r.rawTriggers }
    else r

/-- `PostProcessClass.remove_manual_rules_filter_applied`: rows with a
nonempty manual set get the manual set subtracted from `Filter Applied`. -/
def remove_manual_rules_filter_applied (df : List Row) : List Row :=
  df.map fun r =>
    if r.manualTriggers ≠ ∅
    then { r with finalTriggers := r.finalTriggers \ r.manualTriggers }
    else r

/-! ## Dispatch (`rule_method`, `apply_all_rules*`) -/

/-- One catalogued rule body, as invoked by the dispatcher: it receives the
frame and either returns an updated frame or raises. -/
def RuleFn : Type := List Row → Except String (List Row)

/-- The `@rule_method` wrapper: run the body; on an exception, log it and
return the incoming frame unchanged. -/
def run_rule (f : RuleFn) (df : List Row) : List Row :=
  match f df with
  | .ok d => d
  | .error _ => df

/-- `apply_all_rules_preauth` / `apply_all_rules_claim`: fold the (already
activation- and case-type-filtered, deterministically ordered) rule methods
over the frame, each through its `@rule_method` wrapper. -/
def apply_rules (rules : List RuleFn) (df : List Row) : List Row :=
  rules.foldl (fun d f => run_rule f d) df

/-- `ComputeRule.apply_all_rules`: dispatch on the `data_type` discriminator;
an unrecognised value logs an error and returns the original frame.  The
`Except` return type records that no path of the Python function raises. -/
def apply_all_rules (data_type : String) (preauthRules claimRules : List RuleFn)
    (df : List Row) : Except String (List Row) :=
  if data_type == "PreAuth" then .ok (apply_rules preauthRules df)
  else if data_type == "Claim" then .ok (apply_rules claimRules df)
  else .ok df

/-! ## Whole-phase steps (for the trigger-set invariant) -/

/-- One step of the rule phase as it acts on the frame: a mask-evaluator rule
(through the `@rule_method` wrapper, so a raised `RuntimeError` leaves the
frame unchanged), a group-pair rule, or a manual-promotion step. -/
inductive RuleStep where
  | mask (t : String) (inclusion exclusion : Option CodeSpec)
      (inclusionColumn exclusionColumn : Option String)
      (extra : Option (List ExtraClause))
  | pair (t : String) (pairs : List (List String × List String)) (codeCol : String)
  | promote (t : String)

/-- Run one `RuleStep` on the frame. -/
def runStep (df : List Row) : RuleStep → List Row
  | .mask t inclusion exclusion ic ec extra =>
      match compute_inclusion_exclusion df t inclusion exclusion ic ec extra with
      | .ok d => d
      | .error _ => df
  | .pair t pairs codeCol => apply_group_pair_rule df t pairs codeCol
  | .promote t => apply_manual_trigger df t

/-- The invariant of claim C10: every row's manual trigger set is contained
in its raw trigger set. -/
def manualSubsetRaw (df : List Row) : Prop :=
  ∀ r ∈ df, r.manualTriggers ⊆ r.rawTriggers

/-! ## Claim-side reading of the mask-evaluator contract (claim C1)

These definitions follow the wording of claim C1 (not the code): an
inclusion/exclusion parameter is read as a list of `(column, codes)` clauses
— the bare-code style contributing the single clause built from the
`inclusion_column`/`exclusion_column` argument — with OR across inclusion
clauses, AND across exclusion clauses, and case-insensitive exact string
equality of the row's value against a clause's codes. -/

/-- The clauses a `CodeSpec` supplies, per the claim's reading: a bare code
list paired with its column argument is one clause; a dict list is its
clauses verbatim. -/
def specClauses : CodeSpec → Option String → List Clause
  | .strs codes, some col => [⟨col, codes⟩]
  | .strs _, none => []
  | .dicts clauses, _ => clauses

/-- The claim's matching relation: the row's value in the clause's column
equals one of the clause's codes under case-insensitive exact string
equality. -/
def rowMatchesClause (r : Row) (c : Clause) : Bool :=
  c.codes.any fun code => (cellStr (r.cols c.column)).toLower == code.toLower

/-- Claim C1's inclusion conjunct: inclusion is absent, or some inclusion
clause matches the row (OR across clauses). -/
def specInclusionOK (inclusion : Option CodeSpec) (inclusionColumn : Option String)
    (r : Row) : Bool :=
  match inclusion with
  | none => true
  | some s => (specClauses s inclusionColumn).any (rowMatchesClause r)

/-- Claim C1's exclusion conjunct: for every supplied exclusion clause the
row matches none of its codes (AND across clauses). -/
def specExclusionOK (exclusion : Option CodeSpec) (exclusionColumn : Option String)
    (r : Row) : Bool :=
  match exclusion with
  | none => true
  | some s => (specClauses s exclusionColumn).all fun c => !rowMatchesClause r c

/-- Claim C1's full trigger condition: inclusion conjunct AND exclusion
conjunct AND the extra-condition mask AND the approval flag. -/
def specTrigger (inclusion exclusion : Option CodeSpec)
    (inclusionColumn exclusionColumn : Option String)
    (extra : Option (List ExtraClause)) (r : Row) : Bool :=
  specInclusionOK inclusion inclusionColumn r
    && specExclusionOK exclusion exclusionColumn r
    && is_extra_conditions_present extra r
    && r.approved

/-- Well-formedness of an inclusion parameter as claim C1 presupposes it: a
supplied bare-code inclusion list is nonempty and comes with its
`inclusion_column`; a supplied dict-style list is nonempty. -/
def inclusionWF : Option CodeSpec → Option String → Bool
  | none, _ => true
  | some (.strs codes), ic => !codes.isEmpty && ic.isSome
  | some (.dicts clauses), _ => !clauses.isEmpty

/-! ## Concrete record sets and rules used to exercise the theorems -/

/-- An approved in-patient HIV-test row, as in the end-to-end scenario of the
spec (`ACTIVITY_CODE` 86689, `BENEFIT_TYPE` IN-PATIENT). -/
def hivRow : Row :=
  { cols := fun c =>
      if c = "ACTIVITY_CODE" then .str "86689"
      else if c = "BENEFIT_TYPE" then .str "IN-PATIENT"
      else .na,
    approved := true, exclusionMask := false,
    rawTriggers := ∅, finalTriggers := ∅, manualTriggers := ∅ }

/-- A one-row record set around `hivRow`. -/
def wdf1 : List Row := [hivRow]

/-- An approved row with a numeric `QTY` column. -/
def qtyRow : Row :=
  { cols := fun c => if c = "QTY" then .num 5 else .na,
    approved := true, exclusionMask := false,
    rawTriggers := ∅, finalTriggers := ∅, manualTriggers := ∅ }

/-- A one-row record set around `qtyRow`. -/
def qtydf : List Row := [qtyRow]

/-- An extra-condition clause with an unrecognised operator. -/
def bogusClause : ExtraClause := ⟨"X", [("bogus", CVal.num 1)]⟩

/-- An extra-condition clause applying the numeric operator `gt` to a
non-numeric (string) operand. -/
def gtStrClause : ExtraClause := ⟨"QTY", [("gt", CVal.str "1")]⟩

/-- A rule body that always raises. -/
def failRule : RuleFn := fun _ => .error "boom"

/-- A rule body that unions the trigger `"X"` into every row's raw set. -/
def addXRule : RuleFn := fun d =>
  .ok (d.map fun r => { r with rawTriggers := insert "X" r.rawTriggers })

/-- An approved row of pre-auth group `P1` carrying activity code 84402. -/
def gpRowA : Row :=
  { cols := fun c =>
      if c = "PRE_AUTH_NUMBER" then .str "P1"
      else if c = "ACTIVITY_CODE" then .str "84402"
      else .na,
    approved := true, exclusionMask := false,
    rawTriggers := ∅, finalTriggers := ∅, manualTriggers := ∅ }

/-- An approved row of pre-auth group `P1` carrying activity code 84403. -/
def gpRowB : Row :=
  { cols := fun c =>
      if c = "PRE_AUTH_NUMBER" then .str "P1"
      else if c = "ACTIVITY_CODE" then .str "84403"
      else .na,
    approved := true, exclusionMask := false,
    rawTriggers := ∅, finalTriggers := ∅, manualTriggers := ∅ }

/-- A two-row record set forming one pre-auth group with codes 84402/84403. -/
def gpdf : List Row := [gpRowA, gpRowB]

/-- An approved row with code `A` and neither a pre-auth nor a claim
number. -/
def nullKeyRowA : Row :=
  { cols := fun c => if c = "ACTIVITY_CODE" then .str "A" else .na,
    approved := true, exclusionMask := false,
    rawTriggers := ∅, finalTriggers := ∅, manualTriggers := ∅ }

/-- An approved row with code `B` and neither a pre-auth nor a claim
number. -/
def nullKeyRowB : Row :=
  { cols := fun c => if c = "ACTIVITY_CODE" then .str "B" else .na,
    approved := true, exclusionMask := false,
    rawTriggers := ∅, finalTriggers := ∅, manualTriggers := ∅ }

/-- A two-row record set whose rows lack both correlation identifiers. -/
def nullKeydf : List Row := [nullKeyRowA, nullKeyRowB]

/-- A non-exclusion-eligible row after the rule phase: raw triggers `A`,`B`,
manual trigger `B`, final triggers still empty. -/
def postRow : Row :=
  { cols := fun _ => .na, approved := true, exclusionMask := false,
    rawTriggers := {"A", "B"}, finalTriggers := ∅, manualTriggers := {"B"} }

/-- An exclusion-eligible raw-triggered row after the rule phase. -/
def postRowExcl : Row :=
  { cols := fun _ => .na, approved := true, exclusionMask := true,
    rawTriggers := {"A"}, finalTriggers := ∅, manualTriggers := ∅ }

/-- A two-row record set entering postprocessing. -/
def postdf : List Row := [postRow, postRowExcl]

/-- A concrete rule phase: one mask rule followed by its manual-promotion
step. -/
def demoSteps : List RuleStep :=
  [.mask "T" (some (.strs ["86689"])) none (some "ACTIVITY_CODE") none none,
   .promote "T"]

/-! # Theorems -/

/-- `getD` through a `map`, inside the list. -/
theorem rowGetD_map (f : Row → Row) (l : List Row) (i : Nat) (hi : i < l.length) :
    (l.map f).getD i default = f (l.getD i default) := by
  rw [List.getD_eq_getElem l default hi,
    List.getD_eq_getElem (l.map f) default (by simpa using hi), List.getElem_map]

/-- An in-range `getD` is a member of the list. -/
theorem rowGetD_mem (l : List Row) (i : Nat) (hi : i < l.length) :
    l.getD i default ∈ l := by
  rw [List.getD_eq_getElem l default hi]
  exact List.getElem_mem hi

/-- **C4.** For every record set and every rule with `review_req = manual`,
`apply_manual_trigger` adds the rule's trigger name to a row's ManualTriggers
set if and only if the row's RawTriggers set contains the rule's name and the
row is not globally exclusion-eligible; exclusion-eligible rows are never
promoted, and the ManualTriggers sets of all other rows are unchanged.  (The
code's extra `len(x) > 0` conjunct is subsumed by membership.) -/
theorem c4_manual_promotion (df : List Row) (t : String) :
    apply_manual_trigger df t =
      df.map fun r =>
        if t ∈ r.rawTriggers ∧ ¬r.exclusionMask
        then { r with manualTriggers := insert t r.manualTriggers }
        else r := by
  unfold apply_manual_trigger
  apply List.map_congr_left
  intro r _
  by_cases h : t ∈ r.rawTriggers ∧ ¬r.exclusionMask
  · rw [if_pos h, if_pos ⟨Finset.card_pos.mpr ⟨t, h.1⟩, h.1, h.2⟩]
  · rw [if_neg h, if_neg fun hc => h ⟨hc.2.1, hc.2.2⟩]

/-- **C3.** An exception raised inside a rule's evaluation is caught (by the
`@rule_method` wrapper at the dispatch boundary): the failing rule's
contribution is a no-op — the frame it received, with all triggers applied by
earlier rules, passes through unchanged — and dispatch proceeds with the
remaining rules.  No single rule failure aborts the batch. -/
theorem c3_failure_isolation (pre post : List RuleFn) (f : RuleFn)
    (df : List Row) (e : String) (h : f (apply_rules pre df) = .error e) :
    apply_rules (pre ++ f :: post) df = apply_rules post (apply_rules pre df) := by
  have key : ∀ d : List Row, f d = .error e → run_rule f d = d := by
    intro d hd
    unfold run_rule
    rw [hd]
  unfold apply_rules at h ⊢
  rw [List.foldl_append, List.foldl_cons, key _ h]

/-- Witness for C3: a rule that raises between two trigger-adding rules
contributes nothing, and the following rule still runs. -/
theorem c3_failure_isolation_witness :
    apply_rules ([addXRule] ++ failRule :: [addXRule]) wdf1
      = apply_rules [addXRule] (apply_rules [addXRule] wdf1) :=
  c3_failure_isolation [addXRule] [addXRule] failRule wdf1 "boom" rfl

/-- **C9, counterexample.** Claim C9 states that an unsupported record-type
discriminator is a fatal, user-visible hard error.  In the code
(`ComputeRule.apply_all_rules`) it is a logged, silent pass-through: at the
concrete discriminator `"Claims"` the entry point returns the original frame
normally (`.ok`), evaluating no rule — even though a catalogued rule
(`addXRule`) would have changed the frame had it run. -/
theorem c9_counterexample :
    apply_all_rules "Claims" [addXRule] [addXRule] wdf1 = .ok wdf1
      ∧ ((run_rule addXRule wdf1).getD 0 default).rawTriggers = {"X"}
      ∧ (wdf1.getD 0 default).rawTriggers = ∅ :=
  ⟨rfl, rfl, rfl⟩

/-- **C9, amended.** Invoking `apply_all_rules` with a record-type
discriminator other than `"PreAuth"` or `"Claim"` evaluates no rule, logs an
error, and returns the record set unchanged to the caller — a silent
pass-through rather than a raised error. -/
theorem c9_invalid_discriminator (data_type : String)
    (preauthRules claimRules : List RuleFn) (df : List Row)
    (h1 : data_type ≠ "PreAuth") (h2 : data_type ≠ "Claim") :
    apply_all_rules data_type preauthRules claimRules df = .ok df := by
  simp [apply_all_rules, h1, h2]

/-- Witness for the amended C9. -/
theorem c9_invalid_discriminator_witness :
    apply_all_rules "Claims" [addXRule] [addXRule] wdf1 = .ok wdf1 :=
  c9_invalid_discriminator "Claims" [addXRule] [addXRule] wdf1
    (by decide) (by decide)

/-- **C5.** After the rule phase (where `Filter Applied` is still the empty
set initialized by preprocessing), the postprocessing pair `add_exclusions`
then `remove_manual_rules_filter_applied` leaves every row with
FinalTriggers = RawTriggers minus ManualTriggers when the row is not
exclusion-eligible, and FinalTriggers = ∅ when it is exclusion-eligible —
while RawTriggers is left intact. -/
theorem c5_final_triggers (df : List Row)
    (h : ∀ r ∈ df, r.finalTriggers = ∅) (i : Nat) (hi : i < df.length) :
    ((remove_manual_rules_filter_applied (add_exclusions df)).getD i default).finalTriggers
        = (if (df.getD i default).exclusionMask then ∅
           else (df.getD i default).rawTriggers \ (df.getD i default).manualTriggers)
      ∧ ((remove_manual_rules_filter_applied (add_exclusions df)).getD i default).rawTriggers
        = (df.getD i default).rawTriggers := by
  have hfin : (df.getD i default).finalTriggers = ∅ := h _ (rowGetD_mem df i hi)
  unfold remove_manual_rules_filter_applied add_exclusions
  rw [rowGetD_map _ _ i (by simpa using hi), rowGetD_map _ _ i hi]
  constructor
  all_goals
    split_ifs <;> simp_all [Finset.sdiff_empty, Finset.empty_sdiff]

/-- Witness for C5 at a concrete two-row frame: the non-eligible row keeps
its raw set minus its manual set, the exclusion-eligible row ends empty. -/
theorem c5_final_triggers_witness :
    (((remove_manual_rules_filter_applied (add_exclusions postdf)).getD 0 default).finalTriggers
        = (if (postdf.getD 0 default).exclusionMask then ∅
           else (postdf.getD 0 default).rawTriggers \ (postdf.getD 0 default).manualTriggers)
      ∧ ((remove_manual_rules_filter_applied (add_exclusions postdf)).getD 0 default).rawTriggers
        = (postdf.getD 0 default).rawTriggers)
      ∧ (((remove_manual_rules_filter_applied (add_exclusions postdf)).getD 1 default).finalTriggers
        = (if (postdf.getD 1 default).exclusionMask then ∅
           else (postdf.getD 1 default).rawTriggers \ (postdf.getD 1 default).manualTriggers)
      ∧ ((remove_manual_rules_filter_applied (add_exclusions postdf)).getD 1 default).rawTriggers
        = (postdf.getD 1 default).rawTriggers) :=
  ⟨c5_final_triggers postdf (by decide) 0 (by decide),
   c5_final_triggers postdf (by decide) 1 (by decide)⟩

/-- An operator name outside the recognised set matches none of the branches
of the `_check_extra_condition` chain and falls into the invalid-operator
fallback, which conjoins `False` into the mask. -/
theorem condEval_unrecognized (r : Row) (col op : String) (val : CVal)
    (hop : op ∉ recognizedOps) : condEval r col op val = false := by
  simp only [recognizedOps, List.mem_cons, List.not_mem_nil, or_false, not_or] at hop
  obtain ⟨h1, h2, h3, h4, h5, h6, h7, h8, h9⟩ := hop
  simp [condEval, h1, h2, h3, h4, h5, h6, h7, h8, h9]

/-- A numeric-comparison operator applied to a non-numeric operand fails its
`isinstance` guard, matches no later branch either, and falls into the same
invalid-operator fallback. -/
theorem condEval_numeric_nonNumeric (r : Row) (col op : String) (val : CVal)
    (hop : op = "gt" ∨ op = "gte" ∨ op = "lt" ∨ op = "lte")
    (hval : val.isNumeric = false) : condEval r col op val = false := by
  rcases hop with rfl | rfl | rfl | rfl <;> simp [condEval, hval]

/-- If some operator entry of some extra-condition clause evaluates false on
every row, the whole extra-condition mask is false on every row, so
`_compute_inclusion_exclusion` raises no trigger anywhere and returns the
frame unchanged. -/
theorem mask_noop_of_bad_cond (df : List Row) (t : String)
    (inclusion exclusion : Option CodeSpec) (ic ec : Option String)
    (ecs : List ExtraClause) (c : ExtraClause) (hc : c ∈ ecs)
    (hcond : ∀ r : Row, ∃ q ∈ c.condition, condEval r c.column q.1 q.2 = false) :
    compute_inclusion_exclusion df t inclusion exclusion ic ec (some ecs)
      = .ok df := by
  have hchk : ∀ r : Row, check_extra_condition ecs r = false := by
    intro r
    obtain ⟨q, hq, hqf⟩ := hcond r
    have hall : (ecs.all fun cl =>
        cl.condition.all fun p => condEval r cl.column p.1 p.2) = false := by
      cases hall : ecs.all fun cl =>
          cl.condition.all fun p => condEval r cl.column p.1 p.2 with
      | false => rfl
      | true =>
          have h1 := List.all_eq_true.mp hall c hc
          have h2 := List.all_eq_true.mp h1 q hq
          rw [hqf] at h2
          exact absurd h2 (by simp)
    simp [check_extra_condition, hall]
  have hextra : ∀ r : Row, is_extra_conditions_present (some ecs) r = false := by
    intro r
    cases ecs with
    | nil => exact absurd hc (List.not_mem_nil c)
    | cons head tail => simpa [is_extra_conditions_present] using hchk r
  have htp : ∀ r : Row,
      trigger_present inclusion exclusion ic ec (some ecs) r = false := by
    intro r
    simp [trigger_present, hextra r]
  unfold compute_inclusion_exclusion
  rw [if_neg (by simp)]
  have hmap : (df.map fun r =>
      if trigger_present inclusion exclusion ic ec (some ecs) r
      then { r with rawTriggers := insert t r.rawTriggers } else r) = df := by
    have hid : ∀ r ∈ df,
        (if trigger_present inclusion exclusion ic ec (some ecs) r
         then { r with rawTriggers := insert t r.rawTriggers } else r) = r :=
      fun r _ => if_neg (by simp [htp r])
    rw [List.map_congr_left hid]
    exact List.map_id df
  rw [hmap]

/-- **C6.** An extra-condition clause whose condition uses an operator
outside the recognised set (`gte, lte, gt, lt, eq, neq, isin, notin, notna`)
forces the rule's whole extra-condition mask to false for all rows: the rule
raises zero triggers on every row, with a logged warning and no exception
(the evaluator returns `.ok` with the frame unchanged). -/
theorem c6_unknown_operator (df : List Row) (t : String)
    (inclusion exclusion : Option CodeSpec) (ic ec : Option String)
    (ecs : List ExtraClause) (c : ExtraClause) (q : String × CVal)
    (hc : c ∈ ecs) (hq : q ∈ c.condition) (hop : q.1 ∉ recognizedOps) :
    compute_inclusion_exclusion df t inclusion exclusion ic ec (some ecs)
      = .ok df :=
  mask_noop_of_bad_cond df t inclusion exclusion ic ec ecs c hc
    fun r => ⟨q, hq, condEval_unrecognized r c.column q.1 q.2 hop⟩

/-- Witness for C6: `extra_condition=[{column:"X", condition:{bogus:1}}]`
yields zero triggers on an approved row. -/
theorem c6_unknown_operator_witness :
    compute_inclusion_exclusion wdf1 "T" none none none none (some [bogusClause])
      = .ok wdf1 :=
  c6_unknown_operator wdf1 "T" none none none none [bogusClause] bogusClause
    ("bogus", CVal.num 1) (List.mem_singleton.mpr rfl) (List.mem_singleton.mpr rfl)
    (by decide)

/-- **C7, counterexample.** Claim C7 states that a numeric operator
(`gt/gte/lt/lte`) with a non-numeric operand silently drops that single
clause, so that the rule's extra-condition mask is determined by the
remaining clauses and the approval flag alone.  At the concrete record set
`qtydf` (one approved row) with the single clause
`{column:"QTY", condition:{gt:"1"}}` and no other clause, the claim predicts
the mask to equal the approval flag (true), hence the trigger `"T"` to be
raised; the code instead routes the failed `isinstance` guard into the
invalid-operator fallback (`mask &= False`) and raises nothing: the returned
frame is the unchanged input, whose row 0 has an empty raw trigger set. -/
theorem c7_counterexample :
    compute_inclusion_exclusion qtydf "T" none none none none (some [gtStrClause])
      = .ok qtydf
      ∧ (qtydf.getD 0 default).approved = true
      ∧ (qtydf.getD 0 default).rawTriggers = ∅ :=
  ⟨rfl, rfl, rfl⟩

/-- **C7, amended.** An extra-condition clause applying one of the numeric
operators `gt, gte, lt, lte` to a non-numeric operand is not silently
dropped: it falls into the invalid-operator fallback, forcing the rule's
whole extra-condition mask to false for all rows (with a logged warning), so
the rule raises zero triggers on every row. -/
theorem c7_numeric_nonnumeric_operand (df : List Row) (t : String)
    (inclusion exclusion : Option CodeSpec) (ic ec : Option String)
    (ecs : List ExtraClause) (c : ExtraClause) (op : String) (val : CVal)
    (hc : c ∈ ecs) (hq : (op, val) ∈ c.condition)
    (hop : op = "gt" ∨ op = "gte" ∨ op = "lt" ∨ op = "lte")
    (hval : val.isNumeric = false) :
    compute_inclusion_exclusion df t inclusion exclusion ic ec (some ecs)
      = .ok df :=
  mask_noop_of_bad_cond df t inclusion exclusion ic ec ecs c hc
    fun r => ⟨(op, val), hq, condEval_numeric_nonNumeric r c.column op val hop hval⟩

/-- Witness for the amended C7. -/
theorem c7_numeric_nonnumeric_operand_witness :
    compute_inclusion_exclusion qtydf "T" none none none none (some [gtStrClause])
      = .ok qtydf :=
  c7_numeric_nonnumeric_operand qtydf "T" none none none none [gtStrClause]
    gtStrClause "gt" (CVal.str "1") (List.mem_singleton.mpr rfl)
    (List.mem_singleton.mpr rfl) (Or.inl rfl) rfl

/-- Membership of the lowered cell in the lowered code list (the code's
`str(x).lower() in [c.lower() for c in codes]`) agrees with the claim's
clause matching (some code equal under case-insensitive comparison). -/
theorem codeMatch_eq_rowMatches (codes : List String) (col : String) (r : Row) :
    codeMatch codes col r = rowMatchesClause r ⟨col, codes⟩ := by
  induction codes with
  | nil => rfl
  | cons c cs ih =>
      unfold codeMatch rowMatchesClause at ih ⊢
      simp only [List.map_cons, List.contains_cons, List.any_cons]
      rw [ih]

/-- Under the well-formedness claim C1 presupposes, the code's
`is_inclusion_present` mask equals the claim's inclusion conjunct. -/
theorem inclusion_eq_spec (inclusion : Option CodeSpec) (ic : Option String)
    (r : Row) (hwf : inclusionWF inclusion ic = true) :
    is_inclusion_present inclusion ic r = specInclusionOK inclusion ic r := by
  cases inclusion with
  | none => rfl
  | some s =>
    cases s with
    | strs codes =>
        cases ic with
        | none => simp [inclusionWF] at hwf
        | some col =>
            have hne : codes.isEmpty = false := by
              simp only [inclusionWF, Bool.and_eq_true, Bool.not_eq_true'] at hwf
              exact hwf.1
            simp only [is_inclusion_present, specInclusionOK, CodeSpec.truthy, hne,
              Bool.not_false, if_true, specClauses, List.any_cons, List.any_nil,
              Bool.or_false]
            exact codeMatch_eq_rowMatches codes col r
    | dicts clauses =>
        have hne : clauses.isEmpty = false := by
          simp only [inclusionWF, Bool.not_eq_true'] at hwf
          exact hwf
        simp only [is_inclusion_present, specInclusionOK, CodeSpec.truthy, hne,
          Bool.not_false, if_true, specClauses]
        congr 1
        funext cl
        exact codeMatch_eq_rowMatches cl.codes cl.column r

/-- The code's `is_exclusion_absent` mask always equals the claim's exclusion
conjunct (degenerate shapes — an empty list, or a bare-code list without an
`exclusion_column` — pass on both sides). -/
theorem exclusion_eq_spec (exclusion : Option CodeSpec) (ec : Option String)
    (r : Row) :
    is_exclusion_absent exclusion ec r = specExclusionOK exclusion ec r := by
  match exclusion, ec with
  | none, _ => rfl
  | some (.strs codes), some col =>
      cases hne : codes.isEmpty with
      | true =>
          have : codes = [] := by simpa using hne
          subst this
          rfl
      | false =>
          simp only [is_exclusion_absent, specExclusionOK, CodeSpec.truthy, hne,
            Bool.not_false, if_true, specClauses, List.all_cons, List.all_nil,
            Bool.and_true]
          rw [codeMatch_eq_rowMatches]
  | some (.strs codes), none =>
      simp [is_exclusion_absent, specExclusionOK, specClauses]
  | some (.dicts clauses), ec =>
      cases hne : clauses.isEmpty with
      | true =>
          have : clauses = [] := by simpa using hne
          subst this
          rfl
      | false =>
          simp only [is_exclusion_absent, specExclusionOK, CodeSpec.truthy, hne,
            Bool.not_false, if_true, specClauses]
          congr 1
          funext cl
          rw [codeMatch_eq_rowMatches]

/-- **C1.** For every record set and every rule spec supplying at least one
of inclusion/exclusion/extra_condition (with the inclusion parameter shaped
as the claim presupposes — a nonempty bare-code list with its
`inclusion_column`, or a nonempty clause list), `_compute_inclusion_exclusion`
unions the trigger name into exactly the rows satisfying the claim's
condition: (inclusion absent, or some inclusion clause matches the row's
value case-insensitively — OR across clauses) AND (the row matches no code of
any supplied exclusion clause — AND across clauses) AND the extra-condition
mask AND the approval flag; all other rows pass through unchanged. -/
theorem c1_mask_evaluator (df : List Row) (t : String)
    (inclusion exclusion : Option CodeSpec) (ic ec : Option String)
    (extra : Option (List ExtraClause))
    (hsup : (inclusion.isNone && exclusion.isNone && extra.isNone) = false)
    (hwf : inclusionWF inclusion ic = true) :
    compute_inclusion_exclusion df t inclusion exclusion ic ec extra =
      .ok (df.map fun r =>
        if specTrigger inclusion exclusion ic ec extra r
        then { r with rawTriggers := insert t r.rawTriggers }
        else r) := by
  unfold compute_inclusion_exclusion
  rw [hsup]
  simp only [Bool.false_eq_true, if_false]
  have htp : ∀ r : Row,
      trigger_present inclusion exclusion ic ec extra r
        = specTrigger inclusion exclusion ic ec extra r := by
    intro r
    unfold trigger_present specTrigger
    rw [inclusion_eq_spec inclusion ic r hwf, exclusion_eq_spec exclusion ec r]
  have hmap : ∀ r ∈ df,
      (if trigger_present inclusion exclusion ic ec extra r
       then { r with rawTriggers := insert t r.rawTriggers } else r)
      = (if specTrigger inclusion exclusion ic ec extra r
         then { r with rawTriggers := insert t r.rawTriggers } else r) := by
    intro r _
    rw [htp r]
  rw [List.map_congr_left hmap]

/-- Witness for C1 at the spec's end-to-end scenario: the HIV rule's
parameters on an approved in-patient row with code 86689. -/
theorem c1_mask_evaluator_witness :
    compute_inclusion_exclusion wdf1 "General exclusion - HIV"
        (some (.strs ["86689", "86701", "86702"]))
        (some (.strs ["OUT-PATIENT MATERNITY"]))
        (some "ACTIVITY_CODE") (some "BENEFIT_TYPE") none =
      .ok (wdf1.map fun r =>
        if specTrigger (some (.strs ["86689", "86701", "86702"]))
            (some (.strs ["OUT-PATIENT MATERNITY"]))
            (some "ACTIVITY_CODE") (some "BENEFIT_TYPE") none r
        then { r with rawTriggers := insert "General exclusion - HIV" r.rawTriggers }
        else r) :=
  c1_mask_evaluator wdf1 "General exclusion - HIV"
    (some (.strs ["86689", "86701", "86702"]))
    (some (.strs ["OUT-PATIENT MATERNITY"]))
    (some "ACTIVITY_CODE") (some "BENEFIT_TYPE") none (by decide) (by decide)

/-- `groupKey` reads only the column valuation. -/
theorem groupKey_congr (r s : Row) (h : r.cols = s.cols) :
    groupKey r = groupKey s := by
  unfold groupKey
  rw [h]

/-- `coreEq` is reflexive. -/
theorem coreEq_refl (d : List Row) : coreEq d d :=
  ⟨rfl, fun _ => ⟨rfl, rfl⟩⟩

/-- `coreEq` is transitive. -/
theorem coreEq_trans {a b c : List Row} (h1 : coreEq a b) (h2 : coreEq b c) :
    coreEq a c :=
  ⟨h1.1.trans h2.1, fun j =>
    ⟨(h1.2 j).1.trans ((h2.2 j).1), (h1.2 j).2.trans ((h2.2 j).2)⟩⟩

/-- Tagging one group preserves the columns and approval flags of every
position (it only rewrites raw trigger sets). -/
theorem tagGroup_coreEq (t : String) (pairs : List (List String × List String))
    (c : String) (d : List Row) (k : CellVal) :
    coreEq (tagGroup t pairs c d k) d := by
  unfold tagGroup
  cases pairs.find? (pairMatch (approvedCodes d c k)) with
  | none => exact coreEq_refl d
  | some p =>
      refine ⟨by simp, fun j => ?_⟩
      by_cases hj : j < d.length
      · rw [rowGetD_map _ _ j hj]
        split_ifs
        · exact ⟨rfl, rfl⟩
        · exact ⟨rfl, rfl⟩
      · have hj' : d.length ≤ j := Nat.le_of_not_lt hj
        rw [List.getD_eq_default _ _ (by simpa using hj'),
          List.getD_eq_default _ _ hj']
        exact ⟨rfl, rfl⟩

/-- `approvedCodes` reads only the columns and approval flags, so it is
invariant under `coreEq`. -/
theorem approvedCodes_congr (codeCol : String) (k : CellVal) :
    ∀ d d' : List Row, coreEq d d' →
      approvedCodes d codeCol k = approvedCodes d' codeCol k := by
  intro d
  induction d with
  | nil =>
      intro d' h
      cases d' with
      | nil => rfl
      | cons s ss => exact absurd h.1 (by simp)
  | cons r rs ih =>
      intro d' h
      cases d' with
      | nil => exact absurd h.1 (by simp)
      | cons s ss =>
          have h0 := h.2 0
          simp only [List.getD_cons_zero] at h0
          have htail : coreEq rs ss := by
            refine ⟨by simpa using h.1, fun j => ?_⟩
            have hj := h.2 (j + 1)
            simpa only [List.getD_cons_succ] using hj
          have hkey : groupKey r = groupKey s := groupKey_congr r s h0.1
          have hihs := ih ss htail
          unfold approvedCodes at hihs ⊢
          simp only [List.filter_cons]
          rw [hkey, h0.2]
          cases hp : decide (groupKey s = k) && s.approved with
          | true =>
              simp only [hp, if_true, List.map_cons]
              rw [h0.1, hihs]
          | false =>
              simp only [hp, Bool.false_eq_true, if_false]
              exact hihs

/-- A row whose group key differs from the group being tagged passes through
`tagGroup` unchanged. -/
theorem tagGroup_getD_other (t : String) (pairs : List (List String × List String))
    (c : String) (d : List Row) (k : CellVal) (i : Nat)
    (hne : groupKey (d.getD i default) ≠ k) :
    (tagGroup t pairs c d k).getD i default = d.getD i default := by
  unfold tagGroup
  cases pairs.find? (pairMatch (approvedCodes d c k)) with
  | none => rfl
  | some p =>
      by_cases hj : i < d.length
      · rw [rowGetD_map _ _ i hj]
        have H : ¬((decide (groupKey (d.getD i default) = k)
            && (p.1.contains (cellStr ((d.getD i default).cols c))
                || p.2.contains (cellStr ((d.getD i default).cols c)))
            && (d.getD i default).approved) = true) := by
          intro hcon
          rw [Bool.and_eq_true, Bool.and_eq_true] at hcon
          exact hne (of_decide_eq_true hcon.1.1)
        rw [if_neg H]
      · have hj' : d.length ≤ i := Nat.le_of_not_lt hj
        rw [List.getD_eq_default _ _ (by simpa using hj'),
          List.getD_eq_default _ _ hj']

/-- Tagging the row's own group acts on the row exactly as the claim-side
condition `gpTagged` (computed on any core-equal reference frame)
prescribes. -/
theorem tagGroup_getD_own (t : String) (pairs : List (List String × List String))
    (c : String) (d : List Row) (k : CellVal) (df : List Row) (i : Nat)
    (hi : i < df.length) (hcore : coreEq d df)
    (hgeq : groupKey (df.getD i default) = k) :
    (tagGroup t pairs c d k).getD i default =
      (if gpTagged df pairs c (df.getD i default) = true
       then { d.getD i default with
                rawTriggers := insert t (d.getD i default).rawTriggers }
       else d.getD i default) := by
  have hidl : i < d.length := by
    rw [hcore.1]
    exact hi
  have hcols : (d.getD i default).cols = (df.getD i default).cols := (hcore.2 i).1
  have happ : (d.getD i default).approved = (df.getD i default).approved :=
    (hcore.2 i).2
  have hac : approvedCodes d c k = approvedCodes df c k :=
    approvedCodes_congr c k d df hcore
  have hgk : groupKey (d.getD i default) = k := by
    rw [groupKey_congr _ _ hcols, hgeq]
  unfold tagGroup gpTagged
  rw [hac, hgeq]
  cases hf : pairs.find? (pairMatch (approvedCodes df c k)) with
  | none => simp
  | some p =>
      rw [rowGetD_map _ _ i hidl]
      have hcond : (decide (groupKey (d.getD i default) = k)
            && (p.1.contains (cellStr ((d.getD i default).cols c))
                || p.2.contains (cellStr ((d.getD i default).cols c)))
            && (d.getD i default).approved)
          = ((p.1.contains (cellStr ((df.getD i default).cols c))
                || p.2.contains (cellStr ((df.getD i default).cols c)))
              && (df.getD i default).approved) := by
        rw [hcols, happ, decide_eq_true hgk, Bool.true_and]
      rw [hcond]

/-- Row-level characterisation of folding `tagGroup` over a duplicate-free
key list: a row is rewritten (once) exactly when its own group key occurs in
the list and the claim-side condition `gpTagged` holds for it on the
reference frame. -/
theorem foldTag_getD (t : String) (pairs : List (List String × List String))
    (c : String) (df : List Row) (i : Nat) (hi : i < df.length) :
    ∀ L : List CellVal, L.Nodup → ∀ d : List Row, coreEq d df →
    (L.foldl (tagGroup t pairs c) d).getD i default =
      (if groupKey (df.getD i default) ∈ L
          ∧ gpTagged df pairs c (df.getD i default) = true
       then { d.getD i default with
                rawTriggers := insert t (d.getD i default).rawTriggers }
       else d.getD i default) := by
  intro L
  induction L with
  | nil =>
      intro _ d _
      simp
  | cons k L' ih =>
      intro hnd d hcore
      rw [List.foldl_cons,
        ih (List.nodup_cons.mp hnd).2 (tagGroup t pairs c d k)
          (coreEq_trans (tagGroup_coreEq t pairs c d k) hcore)]
      by_cases hgeq : groupKey (df.getD i default) = k
      · have hkL' : groupKey (df.getD i default) ∉ L' := by
          rw [hgeq]
          exact (List.nodup_cons.mp hnd).1
        rw [if_neg fun hcon => hkL' hcon.1,
          tagGroup_getD_own t pairs c d k df i hi hcore hgeq]
        by_cases hT : gpTagged df pairs c (df.getD i default) = true
        · rw [if_pos hT,
            if_pos ⟨by rw [hgeq]; exact List.mem_cons_self k L', hT⟩]
        · rw [if_neg hT, if_neg fun hcon => hT hcon.2]
      · have hne : groupKey (d.getD i default) ≠ k := by
          rw [groupKey_congr _ _ (hcore.2 i).1]
          exact hgeq
        rw [tagGroup_getD_other t pairs c d k i hne]
        have hmemiff : groupKey (df.getD i default) ∈ k :: L'
            ↔ groupKey (df.getD i default) ∈ L' :=
          ⟨fun hm => (List.mem_cons.mp hm).resolve_left hgeq,
           fun hm => List.mem_cons_of_mem k hm⟩
        by_cases hL : groupKey (df.getD i default) ∈ L'
            ∧ gpTagged df pairs c (df.getD i default) = true
        · rw [if_pos hL, if_pos ⟨hmemiff.mpr hL.1, hL.2⟩]
        · rw [if_neg hL, if_neg fun hcon => hL ⟨hmemiff.mp hcon.1, hcon.2⟩]

/-- **C2.** For every record set, pair list and row with a non-null group
key, the group-pair evaluator rewrites the row exactly as the claim states:
grouping by pre-auth number with claim-number fallback, considering only
approved rows' codes, scanning the pairs in declaration order and stopping at
the first pair both of whose sides intersect the group's approved codes, it
unions the trigger name into the row iff such a first pair exists, the row's
own code lies in `A ∪ B`, and the row is approved (rows failing the
condition, and all other groups' rows, keep their RawTriggers unchanged; a
group intersecting only one side of every pair gains nothing, and codes
present only on unapproved rows do not count, since `approvedCodes` filters
on the approval flag). -/
theorem c2_group_pair (df : List Row) (t : String)
    (pairs : List (List String × List String)) (codeCol : String) (i : Nat)
    (hi : i < df.length)
    (hk : groupKey (df.getD i default) ≠ CellVal.na) :
    (apply_group_pair_rule df t pairs codeCol).getD i default =
      (if gpTagged df pairs codeCol (df.getD i default) = true
       then { df.getD i default with
                rawTriggers := insert t (df.getD i default).rawTriggers }
       else df.getD i default) := by
  unfold apply_group_pair_rule
  rw [foldTag_getD t pairs codeCol df i hi
    ((df.map groupKey).dedup.filter fun k => decide (k ≠ CellVal.na))
    ((List.nodup_dedup _).filter _) df (coreEq_refl df)]
  have hmem : groupKey (df.getD i default)
      ∈ (df.map groupKey).dedup.filter fun k => decide (k ≠ CellVal.na) := by
    rw [List.mem_filter]
    constructor
    · rw [List.mem_dedup]
      exact List.mem_map.mpr ⟨df.getD i default, rowGetD_mem df i hi, rfl⟩
    · simpa using hk
  by_cases hT : gpTagged df pairs codeCol (df.getD i default) = true
  · rw [if_pos ⟨hmem, hT⟩, if_pos hT]
  · rw [if_neg fun hcon => hT hcon.2, if_neg hT]

/-- Witness for C2: in a two-row pre-auth group holding approved codes 84402
and 84403 with the declared pair `(["84402"], ["84403"])`, the theorem
applies to row 0. -/
theorem c2_group_pair_witness :
    (apply_group_pair_rule gpdf "T" [(["84402"], ["84403"])] "ACTIVITY_CODE").getD 0 default =
      (if gpTagged gpdf [(["84402"], ["84403"])] "ACTIVITY_CODE" (gpdf.getD 0 default) = true
       then { gpdf.getD 0 default with
                rawTriggers := insert "T" (gpdf.getD 0 default).rawTriggers }
       else gpdf.getD 0 default) :=
  c2_group_pair gpdf "T" [(["84402"], ["84403"])] "ACTIVITY_CODE" 0
    (by decide) (by decide)

/-- **C8, counterexample.** Claim C8 states that rows whose pre-auth and
claim identifiers are both null are placed into one shared null-key
correlation group and evaluated together against the pair list exactly like
rows sharing a real identifier.  At the concrete frame `nullKeydf` — two
approved rows with codes `A` and `B`, both lacking both identifiers — the
declared pair `(["A"], ["B"])` would then tag both rows; the code instead
drops null keys at the `groupby` (pandas `dropna`), so the evaluator returns
both rows with empty raw trigger sets. -/
theorem c8_counterexample :
    (apply_group_pair_rule nullKeydf "T" [(["A"], ["B"])] "ACTIVITY_CODE").map
        Row.rawTriggers = [∅, ∅]
      ∧ (nullKeydf.getD 0 default).approved = true
      ∧ (nullKeydf.getD 1 default).approved = true
      ∧ cellStr ((nullKeydf.getD 0 default).cols "ACTIVITY_CODE") = "A"
      ∧ cellStr ((nullKeydf.getD 1 default).cols "ACTIVITY_CODE") = "B"
      ∧ groupKey (nullKeydf.getD 0 default) = CellVal.na
      ∧ groupKey (nullKeydf.getD 1 default) = CellVal.na :=
  ⟨rfl, rfl, rfl, rfl, rfl, rfl, rfl⟩

/-- **C8, amended.** A row whose pre-auth and claim identifiers are both null
has a null group key; the `groupby` iteration drops null keys, so the
group-pair evaluator never visits such rows and leaves them entirely
unchanged — they are never tagged, by this rule shape, no matter the pair
list. -/
theorem c8_null_key_rows (df : List Row) (t : String)
    (pairs : List (List String × List String)) (codeCol : String) (i : Nat)
    (hi : i < df.length)
    (hna : groupKey (df.getD i default) = CellVal.na) :
    (apply_group_pair_rule df t pairs codeCol).getD i default
      = df.getD i default := by
  unfold apply_group_pair_rule
  rw [foldTag_getD t pairs codeCol df i hi
    ((df.map groupKey).dedup.filter fun k => decide (k ≠ CellVal.na))
    ((List.nodup_dedup _).filter _) df (coreEq_refl df)]
  rw [if_neg]
  intro hcon
  have hmem := (List.mem_filter.mp hcon.1).2
  rw [hna] at hmem
  simp at hmem

/-- Witness for the amended C8 at `nullKeydf`. -/
theorem c8_null_key_rows_witness :
    (apply_group_pair_rule nullKeydf "T" [(["A"], ["B"])] "ACTIVITY_CODE").getD 0 default
      = nullKeydf.getD 0 default :=
  c8_null_key_rows nullKeydf "T" [(["A"], ["B"])] "ACTIVITY_CODE" 0
    (by decide) (by decide)

/-- A rowwise map that keeps each row's manual set and only grows its raw set
preserves the manual-subset-raw invariant. -/
theorem manualSubsetRaw_of_rawGrow (df : List Row) (f : Row → Row)
    (hf : ∀ r : Row, (f r).manualTriggers = r.manualTriggers
        ∧ r.rawTriggers ⊆ (f r).rawTriggers)
    (h : manualSubsetRaw df) : manualSubsetRaw (df.map f) := by
  intro r' hr'
  obtain ⟨r, hr, rfl⟩ := List.mem_map.mp hr'
  rw [(hf r).1]
  exact (h r hr).trans (hf r).2

/-- Tagging one group preserves the manual-subset-raw invariant. -/
theorem manualSubsetRaw_tagGroup (t : String)
    (pairs : List (List String × List String)) (c : String) (d : List Row)
    (k : CellVal) (h : manualSubsetRaw d) :
    manualSubsetRaw (tagGroup t pairs c d k) := by
  unfold tagGroup
  cases pairs.find? (pairMatch (approvedCodes d c k)) with
  | none => exact h
  | some p =>
      refine manualSubsetRaw_of_rawGrow d _ (fun r => ?_) h
      split_ifs
      · exact ⟨rfl, Finset.subset_insert t r.rawTriggers⟩
      · exact ⟨rfl, Finset.Subset.refl r.rawTriggers⟩

/-- The whole group-pair evaluator preserves the manual-subset-raw
invariant. -/
theorem manualSubsetRaw_group_pair (df : List Row) (t : String)
    (pairs : List (List String × List String)) (codeCol : String)
    (h : manualSubsetRaw df) :
    manualSubsetRaw (apply_group_pair_rule df t pairs codeCol) := by
  unfold apply_group_pair_rule
  generalize (df.map groupKey).dedup.filter (fun k => decide (k ≠ CellVal.na)) = L
  induction L generalizing df with
  | nil => exact h
  | cons k L' ih =>
      rw [List.foldl_cons]
      exact ih (tagGroup t pairs codeCol df k)
        (manualSubsetRaw_tagGroup t pairs codeCol df k h)

/-- A mask-evaluator step (through the `@rule_method` wrapper) preserves the
manual-subset-raw invariant: it either raises — leaving the frame unchanged —
or only unions the trigger into raw sets. -/
theorem manualSubsetRaw_mask (df : List Row) (t : String)
    (inclusion exclusion : Option CodeSpec) (ic ec : Option String)
    (extra : Option (List ExtraClause)) (h : manualSubsetRaw df) :
    manualSubsetRaw (runStep df (.mask t inclusion exclusion ic ec extra)) := by
  show manualSubsetRaw
    (match compute_inclusion_exclusion df t inclusion exclusion ic ec extra with
     | .ok d => d
     | .error _ => df)
  by_cases hb : (inclusion.isNone && exclusion.isNone && extra.isNone) = true
  · have hc : compute_inclusion_exclusion df t inclusion exclusion ic ec extra
        = .error "Inclusion, Exclusion and Extra Condition can not be None at the same time." := by
      unfold compute_inclusion_exclusion
      rw [if_pos hb]
    rw [hc]
    exact h
  · have hc : compute_inclusion_exclusion df t inclusion exclusion ic ec extra
        = .ok (df.map fun r =>
            if trigger_present inclusion exclusion ic ec extra r
            then { r with rawTriggers := insert t r.rawTriggers } else r) := by
      unfold compute_inclusion_exclusion
      rw [if_neg hb]
    rw [hc]
    refine manualSubsetRaw_of_rawGrow df _ (fun r => ?_) h
    split_ifs
    · exact ⟨rfl, Finset.subset_insert t r.rawTriggers⟩
    · exact ⟨rfl, Finset.Subset.refl r.rawTriggers⟩

/-- The manual-promotion step preserves the manual-subset-raw invariant: it
adds the trigger name to a row's manual set only when that name is already in
the row's raw set. -/
theorem manualSubsetRaw_promote (df : List Row) (t : String)
    (h : manualSubsetRaw df) : manualSubsetRaw (apply_manual_trigger df t) := by
  intro r' hr'
  obtain ⟨r, hr, rfl⟩ := List.mem_map.mp hr'
  by_cases hc : 0 < r.rawTriggers.card ∧ t ∈ r.rawTriggers ∧ ¬r.exclusionMask
  · rw [if_pos hc]
    exact Finset.insert_subset_iff.mpr ⟨hc.2.1, h r hr⟩
  · rw [if_neg hc]
    exact h r hr

/-- **C10.** If every row's ManualTriggers set is a subset of its RawTriggers
set (in particular in the preprocessed state, where both are empty), then any
sequence of rule evaluations (mask rules through the failure-isolating
wrapper, group-pair rules) and manual-promotion steps preserves that subset
relation: raw sets only grow by union, and promotion adds a trigger name only
to rows whose raw set already contains it — so after the full rule phase
ManualTriggers ⊆ RawTriggers holds for every row. -/
theorem c10_manual_subset_raw (steps : List RuleStep) (df : List Row)
    (h : manualSubsetRaw df) : manualSubsetRaw (steps.foldl runStep df) := by
  induction steps generalizing df with
  | nil => exact h
  | cons s ss ih =>
      rw [List.foldl_cons]
      refine ih (runStep df s) ?_
      cases s with
      | mask t inclusion exclusion ic ec extra =>
          exact manualSubsetRaw_mask df t inclusion exclusion ic ec extra h
      | pair t pairs codeCol => exact manualSubsetRaw_group_pair df t pairs codeCol h
      | promote t => exact manualSubsetRaw_promote df t h

/-- Witness for C10 at a concrete rule phase (a mask rule followed by its
promotion step) on the preprocessed one-row frame. -/
theorem c10_manual_subset_raw_witness :
    manualSubsetRaw (demoSteps.foldl runStep wdf1) :=
  c10_manual_subset_raw demoSteps wdf1 (by
    intro r hr
    simp only [wdf1, List.mem_singleton] at hr
    subst hr
    exact Finset.empty_subset _)
